import Mathlib

/-!
Verification development for the cachelib access tracker
(src/cachelib/common/AccessTracker.h, class detail::AccessTrackerBase).

The tracker keeps a ring of time-sliced buckets.  Each bucket owns one
probabilistic counter-backend instance (a count-min sketch when
useCounts is set, otherwise one slice of a bloom filter), one raw
operation counter, and one lock.  A shared atomic index
mostRecentAccessedBucket_ names the bucket currently being written.

The embedding below is a shallow, sequential model of the class: the
tick source is passed explicitly as a Nat argument (the code polls the
ticker once per rotation check), keys are represented by their 64-bit
hash value (the hashing function is external to the file), locks carry
no data, and atomics become plain state fields.  The compare-and-swap
of the rotation protocol is modelled by rotationCheckBody, which takes
the observed index explicitly so that stale observations (CAS failure)
are expressible.

The two counter backends (CountMinSketch and BloomFilter) are not part
of the file; per the spec they are external collaborators.  Modelled
from the spec: each bucket backend is the ideal instance of its
interface, a multiset of recorded hash values whose estimate is the
exact multiplicity for the sketch variant and exact membership for the
filter variant (the spec only guarantees no under-estimation resp. no
false negatives; the ideal instance realises both bounds with zero
error).  Backend byte sizes are a per-instance constant fixed at
construction, bucketByteSize.
-/

/-- Construction-time configuration of the tracker.  Mirrors
AccessTrackerBase::Config restricted to the fields the model observes;
the sketch- and filter-sizing knobs only influence the backend byte
size, abstracted as the constant bucketByteSize. -/
structure Config where
  numBuckets : Nat
  numTicksPerBucket : Nat
  useCounts : Bool
  bucketByteSize : Nat
deriving Repr, DecidableEq

/-- State of one AccessTrackerBase instance.  counts models the vector
of count-min sketches (one list of recorded hashes per bucket; empty
when the filter backend is selected), filters models the BloomFilter
(one list of recorded hashes per bucket slice; empty when the sketch
backend is selected, matching the default-constructed filters_),
itemCounts models itemCounts_, and mostRecentAccessedBucket models the
atomic index. -/
structure TrackerState where
  config : Config
  mostRecentAccessedBucket : Nat
  filters : List (List Nat)
  counts : List (List Nat)
  itemCounts : List Nat
deriving Repr, DecidableEq

/-- The constructor AccessTrackerBase(Config): locks_ and itemCounts_
sized to numBuckets, counts_ populated with numBuckets sketches when
useCounts, otherwise filters_ populated with a numBuckets-slice bloom
filter; the atomic index starts at 0. -/
def mkTracker (c : Config) : TrackerState :=
  { config := c
    mostRecentAccessedBucket := 0
    filters := if c.useCounts then [] else List.replicate c.numBuckets []
    counts := if c.useCounts then List.replicate c.numBuckets [] else []
    itemCounts := List.replicate c.numBuckets 0 }

/-- rotatedIdx: rotate a raw bucket number into the ring. -/
def rotatedIdx (c : Config) (bucket : Nat) : Nat :=
  bucket % c.numBuckets

/-- getCurrentBucketIndex: the ring slot owning the current tick. -/
def getCurrentBucketIndex (c : Config) (tick : Nat) : Nat :=
  rotatedIdx c (tick / c.numTicksPerBucket)

/-- getNumBuckets accessor. -/
def getNumBuckets (s : TrackerState) : Nat :=
  s.config.numBuckets

/-- getBucketAccessCountLocked: the backend estimate read under the
bucket lock; multiplicity for the sketch backend, 0/1 membership for
the filter backend (ideal backends, see the header comment). -/
def getBucketAccessCountLocked (s : TrackerState) (idx : Nat) (hashVal : Nat) : Nat :=
  if s.config.useCounts then (s.counts.getD idx []).count hashVal
  else if (s.filters.getD idx []).contains hashVal then 1 else 0

/-- updateBucketLocked: increment the bucket backend with the hash and
bump the bucket's raw counter. -/
def updateBucketLocked (s : TrackerState) (idx : Nat) (hashVal : Nat) : TrackerState :=
  let s1 := if s.config.useCounts
    then { s with counts := s.counts.set idx (hashVal :: s.counts.getD idx []) }
    else { s with filters := s.filters.set idx (hashVal :: s.filters.getD idx []) }
  { s1 with itemCounts := s1.itemCounts.set idx (s1.itemCounts.getD idx 0 + 1) }

/-- resetBucketLocked: clear the bucket backend and zero its raw
counter; run when rotation enters the bucket. -/
def resetBucketLocked (s : TrackerState) (idx : Nat) : TrackerState :=
  let s1 := if s.config.useCounts
    then { s with counts := s.counts.set idx [] }
    else { s with filters := s.filters.set idx [] }
  { s1 with itemCounts := s1.itemCounts.set idx 0 }

/-- Outcome of one iteration of the rotation-check loop in
updateMostRecentAccessedBucket. -/
inductive RotationOutcome where
  | noChange
  | updated (s : TrackerState)
  | retryCheck
deriving Repr, DecidableEq

/-- One iteration of the loop body of updateMostRecentAccessedBucket,
with the loaded index made explicit: observed is the value the thread
read from mostRecentAccessedBucket_; the CAS succeeds exactly when the
shared index still equals observed. -/
def rotationCheckBody (tick : Nat) (s : TrackerState) (observed : Nat) : RotationOutcome :=
  let bucketIdx := getCurrentBucketIndex s.config tick
  if bucketIdx = observed ∨ rotatedIdx s.config (bucketIdx + 1) = observed then
    .noChange
  else if s.mostRecentAccessedBucket = observed then
    .updated (resetBucketLocked { s with mostRecentAccessedBucket := bucketIdx } bucketIdx)
  else
    .retryCheck

/-- updateMostRecentAccessedBucket, sequential semantics: the load at
the top of the loop observes the true shared index, so the CAS of the
first iteration succeeds and the loop runs at most once. -/
def updateMostRecentAccessedBucket (tick : Nat) (s : TrackerState) : TrackerState :=
  let bucketIdx := getCurrentBucketIndex s.config tick
  if bucketIdx = s.mostRecentAccessedBucket ∨
      rotatedIdx s.config (bucketIdx + 1) = s.mostRecentAccessedBucket then
    s
  else
    resetBucketLocked { s with mostRecentAccessedBucket := bucketIdx } bucketIdx

/-- recordAccess: run the rotation check, load the current index, and
update that bucket under its lock. -/
def recordAccess (tick : Nat) (hashVal : Nat) (s : TrackerState) : TrackerState :=
  let s1 := updateMostRecentAccessedBucket tick s
  updateBucketLocked s1 s1.mostRecentAccessedBucket hashVal

/-- getAccesses: run the rotation check, then read the numBuckets
estimates most-recent-first; returns the feature vector together with
the post-call state. -/
def getAccesses (tick : Nat) (hashVal : Nat) (s : TrackerState) : List Nat × TrackerState :=
  let s1 := updateMostRecentAccessedBucket tick s
  let mr := s1.mostRecentAccessedBucket
  ((List.range s1.config.numBuckets).map fun i =>
      getBucketAccessCountLocked s1
        (rotatedIdx s1.config (mr + s1.config.numBuckets - i)) hashVal,
    s1)

/-- recordAndPopulateAccessFeatures: query first, then record, so the
returned vector never reflects the triggering access.  The ticker is
polled once by each sub-call, hence the two tick arguments. -/
def recordAndPopulateAccessFeatures (tickQ tickR : Nat) (hashVal : Nat)
    (s : TrackerState) : List Nat × TrackerState :=
  let p := getAccesses tickQ hashVal s
  (p.1, recordAccess tickR hashVal p.2)

/-- getRotatedAccessCounts: no rotation check; start from the
tick-derived bucket index and read the raw counters most-recent-first,
threading the state through each locked read (each read leaves it
unchanged). -/
def getRotatedAccessCounts (tick : Nat) (s : TrackerState) : List Nat × TrackerState :=
  let currentBucketIdx := getCurrentBucketIndex s.config tick
  (List.range s.config.numBuckets).foldl
    (fun acc i =>
      let idx := rotatedIdx acc.2.config (currentBucketIdx + acc.2.config.numBuckets - i)
      (acc.1 ++ [acc.2.itemCounts.getD idx 0], acc.2))
    ([], s)

/-- getByteSize: byte size of the bloom filter plus, when sketches are
present, the number of sketches times the byte size of the first
(all sketches are constructed identically). -/
def getByteSize (s : TrackerState) : Nat :=
  s.filters.length * s.config.bucketByteSize +
    (if s.counts.isEmpty then 0 else s.counts.length * s.config.bucketByteSize)

/-- The move constructor AccessTrackerBase(AccessTrackerBase&&):
returns (destination, what remains of the source).  Its initializer
list moves config_, the atomic index, filters_, counts_ and locks_ but
omits itemCounts_, so the destination's itemCounts_ is
default-constructed empty and the source keeps its raw counters; the
numeric config fields of the moved-from source keep their values. -/
def moveConstructFrom (other : TrackerState) : TrackerState × TrackerState :=
  ({ config := other.config
     mostRecentAccessedBucket := other.mostRecentAccessedBucket
     filters := other.filters
     counts := other.counts
     itemCounts := [] },
   { other with filters := [], counts := [] })

/-- Move assignment destroys the destination and move-constructs over
it, so its effect coincides with moveConstructFrom of the source. -/
def moveAssign (_dst src : TrackerState) : TrackerState × TrackerState :=
  moveConstructFrom src

/-- Well-formedness: positive configuration and container sizes as
established by the constructor. -/
def wf (s : TrackerState) : Prop :=
  1 ≤ s.config.numBuckets ∧
  1 ≤ s.config.numTicksPerBucket ∧
  s.itemCounts.length = s.config.numBuckets ∧
  s.mostRecentAccessedBucket < s.config.numBuckets ∧
  (s.config.useCounts = true → s.counts.length = s.config.numBuckets ∧ s.filters = []) ∧
  (s.config.useCounts = false → s.filters.length = s.config.numBuckets ∧ s.counts = [])

instance (s : TrackerState) : Decidable (wf s) := by
  unfold wf; infer_instance

/-- Operations of a single-threaded usage trace, each carrying the tick
at which it runs. -/
inductive Op where
  | record (tick hashVal : Nat)
  | query (tick hashVal : Nat)
deriving Repr, DecidableEq

/-- State transformer of one trace operation. -/
def applyOp (s : TrackerState) (op : Op) : TrackerState :=
  match op with
  | .record t h => recordAccess t h s
  | .query t h => (getAccesses t h s).2

/-- Run a trace from a freshly constructed tracker. -/
def runTrace (c : Config) (ops : List Op) : TrackerState :=
  ops.foldl applyOp (mkTracker c)

/-- Number of recordAccess calls in a trace. -/
def numRecords (ops : List Op) : Nat :=
  ops.countP fun op => match op with | .record _ _ => true | .query _ _ => false

/-- Raw count discarded by the rotation reset an operation performs on
state s: the entered bucket's counter when the check rotates, else 0. -/
def discardedBy (s : TrackerState) (op : Op) : Nat :=
  let t := match op with | .record t _ => t | .query t _ => t
  let bucketIdx := getCurrentBucketIndex s.config t
  if bucketIdx = s.mostRecentAccessedBucket ∨
      rotatedIdx s.config (bucketIdx + 1) = s.mostRecentAccessedBucket then 0
  else s.itemCounts.getD bucketIdx 0

/-- Total raw count discarded by rotation resets along a trace. -/
def totalDiscarded (c : Config) (ops : List Op) : Nat :=
  (ops.foldl (fun acc op => (applyOp acc.1 op, acc.2 + discardedBy acc.1 op))
    (mkTracker c, 0)).2

/-- Spec-side definition, following the words of the raw-count
conservation property: the number of recordAccess calls of the trace
whose tick lies within the last window ticks of now (inclusive reading
of the bound, the most generous one). -/
def specRecordsInWindow (ops : List Op) (now window : Nat) : Nat :=
  ops.countP fun op => match op with
    | .record t _ => decide (now ≤ t + window)
    | .query _ _ => false

/-! List and modular-arithmetic helper lemmas. -/

theorem getD_set_self {α : Type} {l : List α} {i : Nat} (v d : α) (h : i < l.length) :
    (l.set i v).getD i d = v := by
  induction l generalizing i with
  | nil => simp at h
  | cons a t ih =>
    cases i with
    | zero => simp
    | succ n => simpa using ih (by simpa using h)

theorem getD_set_ne {α : Type} {l : List α} {i j : Nat} (v d : α) (h : j ≠ i) :
    (l.set i v).getD j d = l.getD j d := by
  induction l generalizing i j with
  | nil => simp
  | cons a t ih =>
    cases i with
    | zero =>
      cases j with
      | zero => exact absurd rfl h
      | succ m => simp
    | succ n =>
      cases j with
      | zero => simp
      | succ m => simpa using ih (i := n) (j := m) (fun hc => h (by simpa using hc))

theorem sum_set_add {l : List Nat} {i : Nat} (v : Nat) (h : i < l.length) :
    (l.set i v).sum + l.getD i 0 = l.sum + v := by
  induction l generalizing i with
  | nil => simp at h
  | cons a t ih =>
    cases i with
    | zero => simp [Nat.add_comm, Nat.add_left_comm]
    | succ n =>
      have := ih (i := n) (by simpa using h)
      simp only [List.set, List.sum_cons, List.getD_cons_succ]
      omega

theorem sum_getD_range (l : List Nat) :
    ∑ i in Finset.range l.length, l.getD i 0 = l.sum := by
  induction l with
  | nil => simp
  | cons a t ih =>
    rw [List.length_cons, Finset.sum_range_succ']
    simp only [List.getD_cons_succ, List.getD_cons_zero, List.sum_cons]
    rw [ih]
    omega

theorem getD_replicate {α : Type} {n i : Nat} (a d : α) :
    (List.replicate n a).getD i d = if i < n then a else d := by
  induction n generalizing i with
  | zero => simp
  | succ m ih =>
    cases i with
    | zero => simp
    | succ k => rw [List.replicate_succ]; simpa using ih (i := k)

theorem set_replicate_self {α : Type} {n i : Nat} (a : α) :
    ((List.replicate n a).set i a) = List.replicate n a := by
  induction n generalizing i with
  | zero => simp
  | succ m ih =>
    cases i with
    | zero => simp [List.replicate_succ]
    | succ k => simp [List.replicate_succ, ih]

theorem sum_range_map (f : Nat → Nat) (n : Nat) :
    ((List.range n).map f).sum = ∑ i in Finset.range n, f i := by
  induction n with
  | zero => simp
  | succ m ih => rw [List.range_succ, Finset.sum_range_succ]; simp [ih]

theorem mod_shift_val {nb m i : Nat} (hm : m < nb) (hi : i < nb) :
    (m + nb - i) % nb = if i ≤ m then m - i else m + nb - i := by
  split
  · next h =>
    have he : m + nb - i = (m - i) + nb := by omega
    rw [he, Nat.add_mod_right, Nat.mod_eq_of_lt (by omega)]
  · next h =>
    exact Nat.mod_eq_of_lt (by omega)

theorem sum_mod_shift (f : Nat → Nat) {nb : Nat} (c : Nat) (h : 1 ≤ nb) :
    ∑ i in Finset.range nb, f ((c + nb - i) % nb) = ∑ j in Finset.range nb, f j := by
  have hm : c % nb < nb := Nat.mod_lt _ (by omega)
  have hcongr : ∀ i ∈ Finset.range nb,
      f ((c + nb - i) % nb) = f ((c % nb + nb - i) % nb) := by
    intro i hi
    simp only [Finset.mem_range] at hi
    have h1 : c + nb - i = c + (nb - i) := by omega
    have h2 : c % nb + nb - i = c % nb + (nb - i) := by omega
    rw [h1, h2, Nat.add_mod c (nb - i) nb, Nat.add_mod (c % nb) (nb - i) nb,
      Nat.mod_mod_of_dvd c (dvd_refl nb)]
  rw [Finset.sum_congr rfl hcongr]
  set m := c % nb with hmdef
  have hsplit : m + 1 ≤ nb := by omega
  rw [Finset.range_eq_Ico,
    ← Finset.sum_Ico_consecutive (fun i => f ((m + nb - i) % nb)) (Nat.zero_le (m+1)) hsplit]
  have partA : ∑ i in Finset.Ico 0 (m+1), f ((m + nb - i) % nb)
      = ∑ j in Finset.Ico 0 (m+1), f j := by
    rw [← Finset.range_eq_Ico]
    have : ∀ i ∈ Finset.range (m+1), f ((m + nb - i) % nb) = f (m + 1 - 1 - i) := by
      intro i hi
      simp only [Finset.mem_range] at hi
      rw [mod_shift_val hm (by omega)]
      simp only [if_pos (by omega : i ≤ m)]
      congr 1
    rw [Finset.sum_congr rfl this, Finset.sum_range_reflect (fun j => f j) (m+1),
      Finset.range_eq_Ico]
  have partB : ∑ i in Finset.Ico (m+1) nb, f ((m + nb - i) % nb)
      = ∑ j in Finset.Ico (m+1) nb, f j := by
    rw [Finset.sum_Ico_eq_sum_range, Finset.sum_Ico_eq_sum_range]
    have hc1 : ∀ k ∈ Finset.range (nb - (m+1)),
        f ((m + nb - (m + 1 + k)) % nb) = f (m + 1 + (nb - (m+1) - 1 - k)) := by
      intro k hk
      simp only [Finset.mem_range] at hk
      rw [mod_shift_val hm (by omega)]
      simp only [if_neg (by omega : ¬ (m + 1 + k ≤ m))]
      congr 1
      omega
    rw [Finset.sum_congr rfl hc1, Finset.sum_range_reflect (fun k => f (m + 1 + k))]
  rw [partA, partB,
    Finset.sum_Ico_consecutive (fun j => f j) (Nat.zero_le (m+1)) hsplit,
    ← Finset.range_eq_Ico]

/-! Structural lemmas about the operations. -/

theorem getRotated_foldl (cur : Nat) (s : TrackerState) :
    ∀ (l : List Nat) (init : List Nat),
      l.foldl (fun acc i =>
        (acc.1 ++ [acc.2.itemCounts.getD
          (rotatedIdx acc.2.config (cur + acc.2.config.numBuckets - i)) 0], acc.2))
        (init, s)
      = (init ++ l.map (fun i =>
          s.itemCounts.getD (rotatedIdx s.config (cur + s.config.numBuckets - i)) 0), s) := by
  intro l
  induction l with
  | nil => intro init; simp
  | cons a t ih =>
    intro init
    rw [List.foldl_cons, ih]
    simp

theorem getRotatedAccessCounts_eq (tick : Nat) (s : TrackerState) :
    getRotatedAccessCounts tick s
      = ((List.range s.config.numBuckets).map fun i =>
          s.itemCounts.getD
            (rotatedIdx s.config
              (getCurrentBucketIndex s.config tick + s.config.numBuckets - i)) 0,
        s) := by
  unfold getRotatedAccessCounts
  simpa using getRotated_foldl (getCurrentBucketIndex s.config tick) s
    (List.range s.config.numBuckets) []

theorem getAccesses_snd (tick hashVal : Nat) (s : TrackerState) :
    (getAccesses tick hashVal s).2 = updateMostRecentAccessedBucket tick s := rfl

theorem wf_updateBucketLocked {s : TrackerState} (idx hashVal : Nat) (hw : wf s) :
    wf (updateBucketLocked s idx hashVal) := by
  obtain ⟨h1, h2, h3, h4, h5, h6⟩ := hw
  unfold wf updateBucketLocked
  cases hc : s.config.useCounts with
  | true =>
    obtain ⟨ha, hb⟩ := h5 hc
    simp [hc, h3, h4, ha, hb, h1, h2]
  | false =>
    obtain ⟨ha, hb⟩ := h6 hc
    simp [hc, h3, h4, ha, hb, h1, h2]

theorem wf_resetBucketLocked {s : TrackerState} (idx : Nat) (hw : wf s) :
    wf (resetBucketLocked s idx) := by
  obtain ⟨h1, h2, h3, h4, h5, h6⟩ := hw
  unfold wf resetBucketLocked
  cases hc : s.config.useCounts with
  | true =>
    obtain ⟨ha, hb⟩ := h5 hc
    simp [hc, h3, h4, ha, hb, h1, h2]
  | false =>
    obtain ⟨ha, hb⟩ := h6 hc
    simp [hc, h3, h4, ha, hb, h1, h2]

theorem wf_setMostRecent {s : TrackerState} {v : Nat} (hw : wf s)
    (hv : v < s.config.numBuckets) :
    wf { s with mostRecentAccessedBucket := v } := by
  obtain ⟨h1, h2, h3, h4, h5, h6⟩ := hw
  exact ⟨h1, h2, h3, hv, h5, h6⟩

theorem wf_updateMostRecentAccessedBucket (tick : Nat) {s : TrackerState} (hw : wf s) :
    wf (updateMostRecentAccessedBucket tick s) := by
  unfold updateMostRecentAccessedBucket
  dsimp only
  split
  · exact hw
  · exact wf_resetBucketLocked _ (wf_setMostRecent hw (Nat.mod_lt _ hw.1))

/-- Discarded raw counts accumulated along a trace, state-recursively. -/
def discardedTrace (s : TrackerState) : List Op → Nat
  | [] => 0
  | op :: rest => discardedBy s op + discardedTrace (applyOp s op) rest

theorem wf_applyOp {s : TrackerState} (op : Op) (hw : wf s) : wf (applyOp s op) := by
  cases op with
  | record t h =>
    exact wf_updateBucketLocked _ _ (wf_updateMostRecentAccessedBucket t hw)
  | query t h =>
    rw [applyOp, getAccesses_snd]
    exact wf_updateMostRecentAccessedBucket t hw

theorem wf_foldl {s : TrackerState} (ops : List Op) (hw : wf s) :
    wf (ops.foldl applyOp s) := by
  induction ops generalizing s with
  | nil => exact hw
  | cons op rest ih => exact ih (wf_applyOp op hw)

theorem wf_mkTracker {c : Config} (h1 : 1 ≤ c.numBuckets) (h2 : 1 ≤ c.numTicksPerBucket) :
    wf (mkTracker c) := by
  unfold wf mkTracker
  cases hc : c.useCounts <;> simp [hc, h1, h2] <;> omega

theorem wf_runTrace {c : Config} (h1 : 1 ≤ c.numBuckets) (h2 : 1 ≤ c.numTicksPerBucket)
    (ops : List Op) : wf (runTrace c ops) :=
  wf_foldl ops (wf_mkTracker h1 h2)

theorem config_updateBucketLocked (s : TrackerState) (idx hashVal : Nat) :
    (updateBucketLocked s idx hashVal).config = s.config := by
  unfold updateBucketLocked
  by_cases hc : s.config.useCounts = true
  · rw [if_pos hc]
  · rw [if_neg hc]

theorem mostRecent_updateBucketLocked (s : TrackerState) (idx hashVal : Nat) :
    (updateBucketLocked s idx hashVal).mostRecentAccessedBucket
      = s.mostRecentAccessedBucket := by
  unfold updateBucketLocked
  by_cases hc : s.config.useCounts = true
  · rw [if_pos hc]
  · rw [if_neg hc]

theorem itemCounts_updateBucketLocked (s : TrackerState) (idx hashVal : Nat) :
    (updateBucketLocked s idx hashVal).itemCounts
      = s.itemCounts.set idx (s.itemCounts.getD idx 0 + 1) := by
  unfold updateBucketLocked
  by_cases hc : s.config.useCounts = true
  · rw [if_pos hc]
  · rw [if_neg hc]

theorem config_resetBucketLocked (s : TrackerState) (idx : Nat) :
    (resetBucketLocked s idx).config = s.config := by
  unfold resetBucketLocked
  by_cases hc : s.config.useCounts = true
  · rw [if_pos hc]
  · rw [if_neg hc]

theorem mostRecent_resetBucketLocked (s : TrackerState) (idx : Nat) :
    (resetBucketLocked s idx).mostRecentAccessedBucket
      = s.mostRecentAccessedBucket := by
  unfold resetBucketLocked
  by_cases hc : s.config.useCounts = true
  · rw [if_pos hc]
  · rw [if_neg hc]

theorem itemCounts_resetBucketLocked (s : TrackerState) (idx : Nat) :
    (resetBucketLocked s idx).itemCounts = s.itemCounts.set idx 0 := by
  unfold resetBucketLocked
  by_cases hc : s.config.useCounts = true
  · rw [if_pos hc]
  · rw [if_neg hc]

theorem counts_updateBucketLocked_sketch {s : TrackerState} (idx hashVal : Nat)
    (hc : s.config.useCounts = true) :
    (updateBucketLocked s idx hashVal).counts
      = s.counts.set idx (hashVal :: s.counts.getD idx []) := by
  unfold updateBucketLocked
  rw [if_pos hc]

theorem filters_updateBucketLocked_sketch {s : TrackerState} (idx hashVal : Nat)
    (hc : s.config.useCounts = true) :
    (updateBucketLocked s idx hashVal).filters = s.filters := by
  unfold updateBucketLocked
  rw [if_pos hc]

theorem counts_updateBucketLocked_filter {s : TrackerState} (idx hashVal : Nat)
    (hc : ¬ s.config.useCounts = true) :
    (updateBucketLocked s idx hashVal).counts = s.counts := by
  unfold updateBucketLocked
  rw [if_neg hc]

theorem filters_updateBucketLocked_filter {s : TrackerState} (idx hashVal : Nat)
    (hc : ¬ s.config.useCounts = true) :
    (updateBucketLocked s idx hashVal).filters
      = s.filters.set idx (hashVal :: s.filters.getD idx []) := by
  unfold updateBucketLocked
  rw [if_neg hc]

theorem counts_resetBucketLocked_sketch {s : TrackerState} (idx : Nat)
    (hc : s.config.useCounts = true) :
    (resetBucketLocked s idx).counts = s.counts.set idx [] := by
  unfold resetBucketLocked
  rw [if_pos hc]

theorem filters_resetBucketLocked_sketch {s : TrackerState} (idx : Nat)
    (hc : s.config.useCounts = true) :
    (resetBucketLocked s idx).filters = s.filters := by
  unfold resetBucketLocked
  rw [if_pos hc]

theorem counts_resetBucketLocked_filter {s : TrackerState} (idx : Nat)
    (hc : ¬ s.config.useCounts = true) :
    (resetBucketLocked s idx).counts = s.counts := by
  unfold resetBucketLocked
  rw [if_neg hc]

theorem filters_resetBucketLocked_filter {s : TrackerState} (idx : Nat)
    (hc : ¬ s.config.useCounts = true) :
    (resetBucketLocked s idx).filters = s.filters.set idx [] := by
  unfold resetBucketLocked
  rw [if_neg hc]

theorem sum_itemCounts_updateBucketLocked {s : TrackerState} {idx : Nat} (hashVal : Nat)
    (hidx : idx < s.itemCounts.length) :
    (updateBucketLocked s idx hashVal).itemCounts.sum = s.itemCounts.sum + 1 := by
  rw [itemCounts_updateBucketLocked]
  have := sum_set_add (l := s.itemCounts) (i := idx) (s.itemCounts.getD idx 0 + 1) hidx
  omega

theorem sum_itemCounts_resetBucketLocked {s : TrackerState} {idx : Nat}
    (hidx : idx < s.itemCounts.length) :
    (resetBucketLocked s idx).itemCounts.sum + s.itemCounts.getD idx 0
      = s.itemCounts.sum := by
  rw [itemCounts_resetBucketLocked]
  have := sum_set_add (l := s.itemCounts) (i := idx) 0 hidx
  omega

theorem sum_step (s : TrackerState) (op : Op) (hw : wf s) :
    (applyOp s op).itemCounts.sum + discardedBy s op
      = s.itemCounts.sum + (match op with | .record _ _ => 1 | .query _ _ => 0) := by
  obtain ⟨h1, h2, h3, h4, h5, h6⟩ := hw
  cases op with
  | record t h =>
    rw [applyOp]
    unfold recordAccess discardedBy updateMostRecentAccessedBucket
    dsimp only
    by_cases hcond : getCurrentBucketIndex s.config t = s.mostRecentAccessedBucket ∨
        rotatedIdx s.config (getCurrentBucketIndex s.config t + 1)
          = s.mostRecentAccessedBucket
    · rw [if_pos hcond, if_pos hcond]
      rw [sum_itemCounts_updateBucketLocked h (by omega)]
    · rw [if_neg hcond, if_neg hcond]
      set target := getCurrentBucketIndex s.config t with htarget
      have htlt : target < s.config.numBuckets := Nat.mod_lt _ (by omega)
      set s' : TrackerState := { s with mostRecentAccessedBucket := target } with hs'
      have hsd : s'.itemCounts = s.itemCounts := rfl
      have hres := @sum_itemCounts_resetBucketLocked s' target
        (by rw [hsd]; omega)
      rw [hsd] at hres
      have hmr : (resetBucketLocked s' target).mostRecentAccessedBucket = target := by
        rw [mostRecent_resetBucketLocked]
      have hlen : (resetBucketLocked s' target).itemCounts.length
          = s.itemCounts.length := by
        rw [itemCounts_resetBucketLocked, hsd, List.length_set]
      rw [hmr, sum_itemCounts_updateBucketLocked h (by omega)]
      omega
  | query t h =>
    rw [applyOp, getAccesses_snd]
    unfold discardedBy updateMostRecentAccessedBucket
    dsimp only
    by_cases hcond : getCurrentBucketIndex s.config t = s.mostRecentAccessedBucket ∨
        rotatedIdx s.config (getCurrentBucketIndex s.config t + 1)
          = s.mostRecentAccessedBucket
    · rw [if_pos hcond, if_pos hcond]
    · rw [if_neg hcond, if_neg hcond]
      set target := getCurrentBucketIndex s.config t with htarget
      have htlt : target < s.config.numBuckets := Nat.mod_lt _ (by omega)
      set s' : TrackerState := { s with mostRecentAccessedBucket := target } with hs'
      have hsd : s'.itemCounts = s.itemCounts := rfl
      have hres := @sum_itemCounts_resetBucketLocked s' target
        (by rw [hsd]; omega)
      rw [hsd] at hres
      omega

theorem pair_foldl_discarded (ops : List Op) :
    ∀ (s : TrackerState) (d : Nat),
      ops.foldl (fun acc op => (applyOp acc.1 op, acc.2 + discardedBy acc.1 op)) (s, d)
        = (ops.foldl applyOp s, d + discardedTrace s ops) := by
  induction ops with
  | nil => intro s d; simp [discardedTrace]
  | cons op rest ih =>
    intro s d
    rw [List.foldl_cons, List.foldl_cons, ih, discardedTrace]
    simp [Nat.add_assoc]

theorem trace_sum (ops : List Op) :
    ∀ (s : TrackerState), wf s →
      (ops.foldl applyOp s).itemCounts.sum + discardedTrace s ops
        = s.itemCounts.sum + numRecords ops := by
  induction ops with
  | nil => intro s _; simp [discardedTrace, numRecords]
  | cons op rest ih =>
    intro s hw
    have hstep := sum_step s op hw
    have hrest := ih (applyOp s op) (wf_applyOp op hw)
    rw [List.foldl_cons, discardedTrace]
    have hcount : numRecords (op :: rest)
        = numRecords rest + (match op with | .record _ _ => 1 | .query _ _ => 0) := by
      unfold numRecords
      rw [List.countP_cons]
      cases op <;> simp
    cases op <;> (simp only [] at hstep hcount ⊢; omega)

theorem sum_getRotated {s : TrackerState} (tick : Nat) (hw : wf s) :
    (getRotatedAccessCounts tick s).1.sum = s.itemCounts.sum := by
  obtain ⟨h1, h2, h3, h4, h5, h6⟩ := hw
  rw [getRotatedAccessCounts_eq]
  dsimp only
  rw [sum_range_map]
  unfold rotatedIdx
  rw [sum_mod_shift (fun j => s.itemCounts.getD j 0) _ h1, ← h3, sum_getD_range]

theorem sum_runTrace {c : Config} (h1 : 1 ≤ c.numBuckets) (h2 : 1 ≤ c.numTicksPerBucket)
    (ops : List Op) (tick : Nat) :
    (getRotatedAccessCounts tick (runTrace c ops)).1.sum + totalDiscarded c ops
      = numRecords ops := by
  have hwf := wf_runTrace h1 h2 ops
  rw [sum_getRotated tick hwf]
  unfold totalDiscarded
  rw [pair_foldl_discarded]
  unfold runTrace
  have ht := trace_sum ops (mkTracker c) (wf_mkTracker h1 h2)
  have hz : (mkTracker c).itemCounts.sum = 0 := by simp [mkTracker]
  unfold runTrace at *
  omega

/-! Claim theorems. -/

/-- C1: every rotation check (run by recordAccess and getAccesses) computes the
target bucket as (currentTick / numTicksPerBucket) mod numBuckets; if the target
equals the shared most-recent index or its ring successor equals it, the check
returns with no state change; otherwise the shared index is CAS-updated from the
observed most-recent value to the target, the CAS winner resets exactly that
bucket's backend and raw counter, and a failed CAS (stale observation) retries
the whole check. -/
theorem rotation_check_correct (tick : Nat) (s : TrackerState) (observed : Nat) :
    (getCurrentBucketIndex s.config tick
        = tick / s.config.numTicksPerBucket % s.config.numBuckets) ∧
    ((getCurrentBucketIndex s.config tick = s.mostRecentAccessedBucket ∨
        rotatedIdx s.config (getCurrentBucketIndex s.config tick + 1)
          = s.mostRecentAccessedBucket) →
      updateMostRecentAccessedBucket tick s = s) ∧
    ((getCurrentBucketIndex s.config tick = observed ∨
        rotatedIdx s.config (getCurrentBucketIndex s.config tick + 1) = observed) →
      rotationCheckBody tick s observed = .noChange) ∧
    (¬ (getCurrentBucketIndex s.config tick = observed ∨
        rotatedIdx s.config (getCurrentBucketIndex s.config tick + 1) = observed) →
      (s.mostRecentAccessedBucket = observed →
        rotationCheckBody tick s observed
          = .updated (updateMostRecentAccessedBucket tick s) ∧
        (updateMostRecentAccessedBucket tick s).mostRecentAccessedBucket
          = getCurrentBucketIndex s.config tick ∧
        (updateMostRecentAccessedBucket tick s).itemCounts
          = s.itemCounts.set (getCurrentBucketIndex s.config tick) 0 ∧
        (s.config.useCounts = true →
          (updateMostRecentAccessedBucket tick s).counts
            = s.counts.set (getCurrentBucketIndex s.config tick) [] ∧
          (updateMostRecentAccessedBucket tick s).filters = s.filters) ∧
        (s.config.useCounts = false →
          (updateMostRecentAccessedBucket tick s).filters
            = s.filters.set (getCurrentBucketIndex s.config tick) [] ∧
          (updateMostRecentAccessedBucket tick s).counts = s.counts)) ∧
      (s.mostRecentAccessedBucket ≠ observed →
        rotationCheckBody tick s observed = .retryCheck)) := by
  refine ⟨rfl, ?_, ?_, ?_⟩
  · intro hcond
    unfold updateMostRecentAccessedBucket
    dsimp only
    rw [if_pos hcond]
  · intro hcond
    unfold rotationCheckBody
    dsimp only
    rw [if_pos hcond]
  · intro hcond
    constructor
    · intro hobs
      have hcond' : ¬ (getCurrentBucketIndex s.config tick = s.mostRecentAccessedBucket ∨
          rotatedIdx s.config (getCurrentBucketIndex s.config tick + 1)
            = s.mostRecentAccessedBucket) := by
        rw [hobs]; exact hcond
      have hu : updateMostRecentAccessedBucket tick s
          = resetBucketLocked
              { s with mostRecentAccessedBucket := getCurrentBucketIndex s.config tick }
              (getCurrentBucketIndex s.config tick) := by
        unfold updateMostRecentAccessedBucket
        dsimp only
        rw [if_neg hcond']
      have hb : rotationCheckBody tick s observed
          = .updated (resetBucketLocked
              { s with mostRecentAccessedBucket := getCurrentBucketIndex s.config tick }
              (getCurrentBucketIndex s.config tick)) := by
        unfold rotationCheckBody
        dsimp only
        rw [if_neg hcond, if_pos hobs]
      refine ⟨by rw [hb, hu], ?_, ?_, ?_, ?_⟩
      · rw [hu, mostRecent_resetBucketLocked]
      · rw [hu, itemCounts_resetBucketLocked]
      · intro hc
        have hc' : ({ s with mostRecentAccessedBucket :=
            getCurrentBucketIndex s.config tick } : TrackerState).config.useCounts
              = true := hc
        rw [hu, counts_resetBucketLocked_sketch _ hc',
          filters_resetBucketLocked_sketch _ hc']
        exact ⟨rfl, rfl⟩
      · intro hc
        have hc' : ¬ ({ s with mostRecentAccessedBucket :=
            getCurrentBucketIndex s.config tick } : TrackerState).config.useCounts
              = true := by
          simp [hc]
        rw [hu, counts_resetBucketLocked_filter _ hc',
          filters_resetBucketLocked_filter _ hc']
        exact ⟨rfl, rfl⟩
    · intro hobs
      unfold rotationCheckBody
      dsimp only
      rw [if_neg hcond, if_neg hobs]

/-- C1 witness: a concrete rotation at numBuckets = 4, one recorded access in
bucket 0, tick 2: the CAS from observed index 0 to target 2 succeeds, the
entered bucket is reset, and a stale observation (1) retries. -/
theorem rotation_check_correct_witness :
    rotationCheckBody 2 (recordAccess 0 5 (mkTracker ⟨4, 1, true, 8⟩)) 0
        = .updated (updateMostRecentAccessedBucket 2
            (recordAccess 0 5 (mkTracker ⟨4, 1, true, 8⟩))) ∧
    (updateMostRecentAccessedBucket 2
        (recordAccess 0 5 (mkTracker ⟨4, 1, true, 8⟩))).mostRecentAccessedBucket = 2 ∧
    rotationCheckBody 2 (recordAccess 0 5 (mkTracker ⟨4, 1, true, 8⟩)) 1
        = .retryCheck ∧
    rotationCheckBody 3 (recordAccess 0 5 (mkTracker ⟨4, 1, true, 8⟩)) 0
        = .noChange := by
  have h := rotation_check_correct 2 (recordAccess 0 5 (mkTracker ⟨4, 1, true, 8⟩)) 0
  have h1 := rotation_check_correct 2 (recordAccess 0 5 (mkTracker ⟨4, 1, true, 8⟩)) 1
  have h2 := rotation_check_correct 3 (recordAccess 0 5 (mkTracker ⟨4, 1, true, 8⟩)) 0
  refine ⟨(h.2.2.2 (by decide) |>.1 (by decide)).1,
    (h.2.2.2 (by decide) |>.1 (by decide)).2.1, ?_, ?_⟩
  · exact h1.2.2.2 (by decide) |>.2 (by decide)
  · exact h2.2.2.1 (by decide)

theorem config_updateMostRecentAccessedBucket (tick : Nat) (s : TrackerState) :
    (updateMostRecentAccessedBucket tick s).config = s.config := by
  unfold updateMostRecentAccessedBucket
  dsimp only
  split
  · rfl
  · rw [config_resetBucketLocked]

theorem getD_map_range (f : Nat → Nat) {n i : Nat} (h : i < n) :
    ((List.range n).map f).getD i 0 = f i := by
  rw [List.getD_eq_getElem?_getD, List.getElem?_map, List.getElem?_range h]
  rfl

/-- C2: for numBuckets at least 1, getAccesses returns a vector of length
numBuckets whose position i holds the estimate for the key's hash read from the
bucket at index (mostRecent + numBuckets - i) mod numBuckets of the post-check
state: elements are ordered most-recent-first. -/
theorem getAccesses_ordering (tick hashVal : Nat) (s : TrackerState)
    (h1 : 1 ≤ s.config.numBuckets) :
    (getAccesses tick hashVal s).1.length = s.config.numBuckets ∧
    ∀ i, i < s.config.numBuckets →
      (getAccesses tick hashVal s).1.getD i 0
        = getBucketAccessCountLocked (getAccesses tick hashVal s).2
            (rotatedIdx s.config
              ((getAccesses tick hashVal s).2.mostRecentAccessedBucket
                + s.config.numBuckets - i)) hashVal := by
  have hcfg := config_updateMostRecentAccessedBucket tick s
  unfold getAccesses
  dsimp only
  rw [hcfg]
  constructor
  · simp
  · intro i hi
    rw [getD_map_range _ hi]

/-- C2 witness: the spec's worked scenario, numBuckets 3, one access to hash 10
at tick 0 and one to hash 20 at tick 1; position 1 of getAccesses at tick 1
reads the bucket one span back. -/
theorem getAccesses_ordering_witness :
    (getAccesses 1 10 (recordAccess 1 20 (recordAccess 0 10
        (mkTracker ⟨3, 1, true, 4⟩)))).1.length = 3 ∧
    (getAccesses 1 10 (recordAccess 1 20 (recordAccess 0 10
        (mkTracker ⟨3, 1, true, 4⟩)))).1.getD 1 0
      = getBucketAccessCountLocked
          (getAccesses 1 10 (recordAccess 1 20 (recordAccess 0 10
            (mkTracker ⟨3, 1, true, 4⟩)))).2
          (rotatedIdx (⟨3, 1, true, 4⟩ : Config)
            ((getAccesses 1 10 (recordAccess 1 20 (recordAccess 0 10
              (mkTracker ⟨3, 1, true, 4⟩)))).2.mostRecentAccessedBucket + 3 - 1)) 10 := by
  have h := getAccesses_ordering 1 10
    (recordAccess 1 20 (recordAccess 0 10 (mkTracker ⟨3, 1, true, 4⟩))) (by decide)
  exact ⟨h.1, h.2 1 (by decide)⟩

theorem getD_set_nil {α : Type} {l : List (List α)} (i : Nat)
    (hall : ∀ j, l.getD j [] = []) : ∀ j, (l.set i ([] : List α)).getD j [] = [] := by
  intro j
  by_cases hj : j = i
  · subst hj
    by_cases hlt : j < l.length
    · exact getD_set_self _ _ hlt
    · rw [List.set_eq_of_length_le (by omega)]
      exact hall j
  · rw [getD_set_ne _ _ hj]
    exact hall j

theorem getD_replicate_nil {α : Type} (n : Nat) :
    ∀ j, (List.replicate n ([] : List α)).getD j [] = [] := by
  intro j
  rw [getD_replicate]
  split <;> rfl

theorem counts_mkTracker_empty (c : Config) :
    ∀ j, (mkTracker c).counts.getD j [] = [] := by
  intro j
  unfold mkTracker
  dsimp only
  split
  · exact getD_replicate_nil _ j
  · rfl

theorem filters_mkTracker_empty (c : Config) :
    ∀ j, (mkTracker c).filters.getD j [] = [] := by
  intro j
  unfold mkTracker
  dsimp only
  split
  · rfl
  · exact getD_replicate_nil _ j

theorem counts_updMR_empty (tick : Nat) {s : TrackerState}
    (hall : ∀ j, s.counts.getD j [] = []) :
    ∀ j, (updateMostRecentAccessedBucket tick s).counts.getD j [] = [] := by
  unfold updateMostRecentAccessedBucket
  dsimp only
  split
  · exact hall
  · by_cases hc : ({ s with mostRecentAccessedBucket :=
        getCurrentBucketIndex s.config tick } : TrackerState).config.useCounts = true
    · rw [counts_resetBucketLocked_sketch _ hc]
      exact getD_set_nil _ hall
    · rw [counts_resetBucketLocked_filter _ hc]
      exact hall

theorem filters_updMR_empty (tick : Nat) {s : TrackerState}
    (hall : ∀ j, s.filters.getD j [] = []) :
    ∀ j, (updateMostRecentAccessedBucket tick s).filters.getD j [] = [] := by
  unfold updateMostRecentAccessedBucket
  dsimp only
  split
  · exact hall
  · by_cases hc : ({ s with mostRecentAccessedBucket :=
        getCurrentBucketIndex s.config tick } : TrackerState).config.useCounts = true
    · rw [filters_resetBucketLocked_sketch _ hc]
      exact hall
    · rw [filters_resetBucketLocked_filter _ hc]
      exact getD_set_nil _ hall

theorem estimate_zero_of_empty {s : TrackerState}
    (hc : ∀ j, s.counts.getD j [] = []) (hf : ∀ j, s.filters.getD j [] = [])
    (idx hashVal : Nat) : getBucketAccessCountLocked s idx hashVal = 0 := by
  unfold getBucketAccessCountLocked
  by_cases h : s.config.useCounts = true
  · rw [if_pos h, hc idx]
    rfl
  · rw [if_neg h, hf idx]
    simp

theorem map_range_zero {f : Nat → Nat} {n : Nat} (h : ∀ i, f i = 0) :
    (List.range n).map f = List.replicate n 0 := by
  induction n with
  | zero => simp
  | succ m ih =>
    rw [List.range_succ, List.map_append, ih]
    simp [h, List.replicate_succ']

theorem updMR_eq_self (tick : Nat) {s : TrackerState}
    (hcond : getCurrentBucketIndex s.config tick = s.mostRecentAccessedBucket ∨
      rotatedIdx s.config (getCurrentBucketIndex s.config tick + 1)
        = s.mostRecentAccessedBucket) :
    updateMostRecentAccessedBucket tick s = s := by
  unfold updateMostRecentAccessedBucket
  dsimp only
  rw [if_pos hcond]

theorem cond_after_updMR (tick : Nat) (s : TrackerState) :
    getCurrentBucketIndex (updateMostRecentAccessedBucket tick s).config tick
        = (updateMostRecentAccessedBucket tick s).mostRecentAccessedBucket ∨
      rotatedIdx (updateMostRecentAccessedBucket tick s).config
          (getCurrentBucketIndex (updateMostRecentAccessedBucket tick s).config tick + 1)
        = (updateMostRecentAccessedBucket tick s).mostRecentAccessedBucket := by
  unfold updateMostRecentAccessedBucket
  dsimp only
  split
  · next hcond => exact hcond
  · next hcond =>
    left
    rw [config_resetBucketLocked, mostRecent_resetBucketLocked]

theorem updMR_idem (tick : Nat) (s : TrackerState) :
    updateMostRecentAccessedBucket tick (updateMostRecentAccessedBucket tick s)
      = updateMostRecentAccessedBucket tick s :=
  updMR_eq_self tick (cond_after_updMR tick s)

theorem mod_shift_zero {nb m : Nat} (hm : m < nb) : (m + nb - 0) % nb = m := by
  rw [mod_shift_val hm (by omega)]
  simp

theorem mod_shift_ne {nb m i : Nat} (hm : m < nb) (hlo : 1 ≤ i) (hhi : i < nb) :
    (m + nb - i) % nb ≠ m := by
  rw [mod_shift_val hm hhi]
  split <;> omega

/-- C3: recordAndPopulateAccessFeatures returns getAccesses of the pre-record
state, so the triggering access is never counted in its own feature vector: on
a fresh tracker it returns all zeros, and an immediately repeated call for the
same key shows exactly one access at position 0 and zero elsewhere. -/
theorem recordAndPopulate_no_self_count (c : Config) (tickQ tickR tick hashVal : Nat)
    (s : TrackerState) (h1 : 1 ≤ c.numBuckets) (h2 : 1 ≤ c.numTicksPerBucket) :
    ((recordAndPopulateAccessFeatures tickQ tickR hashVal s).1
        = (getAccesses tickQ hashVal s).1) ∧
    ((recordAndPopulateAccessFeatures tick tick hashVal (mkTracker c)).1
        = List.replicate c.numBuckets 0) ∧
    ((recordAndPopulateAccessFeatures tick tick hashVal
        ((recordAndPopulateAccessFeatures tick tick hashVal (mkTracker c)).2)).1.getD 0 0
          = 1 ∧
      ∀ i, 1 ≤ i → i < c.numBuckets →
        (recordAndPopulateAccessFeatures tick tick hashVal
          ((recordAndPopulateAccessFeatures tick tick hashVal (mkTracker c)).2)).1.getD i 0
            = 0) := by
  have hwf0 : wf (mkTracker c) := wf_mkTracker h1 h2
  have hwfA : wf (updateMostRecentAccessedBucket tick (mkTracker c)) :=
    wf_updateMostRecentAccessedBucket tick hwf0
  have hcfgA : (updateMostRecentAccessedBucket tick (mkTracker c)).config = c :=
    config_updateMostRecentAccessedBucket tick (mkTracker c)
  have hcountsA : ∀ j,
      (updateMostRecentAccessedBucket tick (mkTracker c)).counts.getD j [] = [] :=
    counts_updMR_empty tick (counts_mkTracker_empty c)
  have hfiltersA : ∀ j,
      (updateMostRecentAccessedBucket tick (mkTracker c)).filters.getD j [] = [] :=
    filters_updMR_empty tick (filters_mkTracker_empty c)
  refine ⟨rfl, ?_, ?_⟩
  · show (getAccesses tick hashVal (mkTracker c)).1 = List.replicate c.numBuckets 0
    unfold getAccesses
    dsimp only
    rw [hcfgA]
    exact map_range_zero fun i => estimate_zero_of_empty hcountsA hfiltersA _ hashVal
  · set sA := updateMostRecentAccessedBucket tick (mkTracker c) with hsA
    obtain ⟨hA1, hA2, hA3, hA4, hA5, hA6⟩ := hwfA
    set m := sA.mostRecentAccessedBucket with hsm
    have hm : m < c.numBuckets := by rw [hsm, ← hcfgA]; exact hA4
    have hS1eq : (recordAndPopulateAccessFeatures tick tick hashVal (mkTracker c)).2
        = updateBucketLocked sA m hashVal := by
      show recordAccess tick hashVal sA = _
      unfold recordAccess
      dsimp only
      rw [show updateMostRecentAccessedBucket tick sA = sA from by
        rw [hsA]; exact updMR_idem tick (mkTracker c)]
    set S1 := updateBucketLocked sA m hashVal with hS1
    have hcfgS1 : S1.config = c := by
      rw [hS1, config_updateBucketLocked, hcfgA]
    have hmrS1 : S1.mostRecentAccessedBucket = m := by
      rw [hS1, mostRecent_updateBucketLocked]
    have hcondS1 : getCurrentBucketIndex S1.config tick = S1.mostRecentAccessedBucket ∨
        rotatedIdx S1.config (getCurrentBucketIndex S1.config tick + 1)
          = S1.mostRecentAccessedBucket := by
      rw [hcfgS1, hmrS1, ← hcfgA, hsm, hsA]
      exact cond_after_updMR tick (mkTracker c)
    have hupd2 : updateMostRecentAccessedBucket tick S1 = S1 := updMR_eq_self tick hcondS1
    have hsecond : ∀ i, i < c.numBuckets →
        (recordAndPopulateAccessFeatures tick tick hashVal
            ((recordAndPopulateAccessFeatures tick tick hashVal (mkTracker c)).2)).1.getD i 0
          = getBucketAccessCountLocked S1
              (rotatedIdx c (m + c.numBuckets - i)) hashVal := by
      intro i hi
      show (getAccesses tick hashVal
          ((recordAndPopulateAccessFeatures tick tick hashVal (mkTracker c)).2)).1.getD i 0 = _
      rw [hS1eq]
      unfold getAccesses
      dsimp only
      rw [hupd2, hcfgS1, hmrS1]
      exact getD_map_range _ hi
    have hbucket : ∀ idx, idx < c.numBuckets →
        getBucketAccessCountLocked S1 idx hashVal = if idx = m then 1 else 0 := by
      intro idx hidx
      unfold getBucketAccessCountLocked
      by_cases hcu : S1.config.useCounts = true
      · rw [if_pos hcu]
        have hcuA : sA.config.useCounts = true := by
          rw [← config_updateBucketLocked sA m hashVal]; exact hcu
        have hlenA : sA.counts.length = c.numBuckets := by
          rw [← hcfgA]; exact (hA5 hcuA).1
        have hcS1 : S1.counts = sA.counts.set m [hashVal] := by
          rw [hS1, counts_updateBucketLocked_sketch _ _ hcuA, hcountsA m]
        by_cases he : idx = m
        · subst he
          rw [if_pos rfl, hcS1, getD_set_self _ _ (by omega)]
          simp
        · rw [if_neg he, hcS1, getD_set_ne _ _ he, hcountsA idx]
          rfl
      · rw [if_neg hcu]
        have hcuA : ¬ sA.config.useCounts = true := by
          rw [← config_updateBucketLocked sA m hashVal]; exact hcu
        have hcuA' : sA.config.useCounts = false := by
          cases hx : sA.config.useCounts
          · rfl
          · exact absurd hx hcuA
        have hlenA : sA.filters.length = c.numBuckets := by
          rw [← hcfgA]; exact (hA6 hcuA').1
        have hfS1 : S1.filters = sA.filters.set m [hashVal] := by
          rw [hS1, filters_updateBucketLocked_filter _ _ hcuA, hfiltersA m]
        by_cases he : idx = m
        · subst he
          rw [if_pos rfl, hfS1, getD_set_self _ _ (by omega)]
          simp
        · rw [if_neg he, hfS1, getD_set_ne _ _ he, hfiltersA idx]
          rfl
    constructor
    · rw [hsecond 0 (by omega)]
      have hidx0 : rotatedIdx c (m + c.numBuckets - 0) = m := by
        unfold rotatedIdx
        exact mod_shift_zero hm
      rw [hidx0, hbucket m hm, if_pos rfl]
    · intro i hlo hhi
      rw [hsecond i hhi]
      have hne : rotatedIdx c (m + c.numBuckets - i) ≠ m := by
        unfold rotatedIdx
        exact mod_shift_ne hm hlo hhi
      rw [hbucket _ (by unfold rotatedIdx; exact Nat.mod_lt _ (by omega)), if_neg hne]

/-- C3 witness: numBuckets 3, hash 10, tick 0: query-then-record on a fresh
tracker returns zeros; a second identical call shows one access at position 0
and none at position 1. -/
theorem recordAndPopulate_no_self_count_witness :
    ((recordAndPopulateAccessFeatures 0 0 10 (mkTracker ⟨3, 1, true, 4⟩)).1
        = (getAccesses 0 10 (mkTracker ⟨3, 1, true, 4⟩)).1) ∧
    ((recordAndPopulateAccessFeatures 0 0 10 (mkTracker ⟨3, 1, true, 4⟩)).1
        = List.replicate 3 0) ∧
    ((recordAndPopulateAccessFeatures 0 0 10
        ((recordAndPopulateAccessFeatures 0 0 10
          (mkTracker ⟨3, 1, true, 4⟩)).2)).1.getD 0 0 = 1) ∧
    ((recordAndPopulateAccessFeatures 0 0 10
        ((recordAndPopulateAccessFeatures 0 0 10
          (mkTracker ⟨3, 1, true, 4⟩)).2)).1.getD 1 0 = 0) := by
  have h := recordAndPopulate_no_self_count ⟨3, 1, true, 4⟩ 0 0 0 10
    (mkTracker ⟨3, 1, true, 4⟩) (by decide) (by decide)
  exact ⟨h.1, h.2.1, h.2.2.1, h.2.2.2 1 (by decide) (by decide)⟩

/-- C5: getRotatedAccessCounts performs the most-recent-first traversal of
getAccesses over the raw counters: length numBuckets, position i holding the
raw counter of the bucket at index (current + numBuckets - i) mod numBuckets,
the current index being the tick-derived one. -/
theorem getRotatedAccessCounts_ordering (tick : Nat) (s : TrackerState)
    (h1 : 1 ≤ s.config.numBuckets) :
    (getRotatedAccessCounts tick s).1.length = s.config.numBuckets ∧
    ∀ i, i < s.config.numBuckets →
      (getRotatedAccessCounts tick s).1.getD i 0
        = s.itemCounts.getD
            (rotatedIdx s.config
              (getCurrentBucketIndex s.config tick + s.config.numBuckets - i)) 0 := by
  rw [getRotatedAccessCounts_eq]
  constructor
  · simp
  · intro i hi
    exact getD_map_range _ hi

/-- C5 witness: the three raw counters of the worked scenario, read at tick 1
with buckets 0 and 1 holding one access each. -/
theorem getRotatedAccessCounts_ordering_witness :
    (getRotatedAccessCounts 1 (recordAccess 1 20 (recordAccess 0 10
        (mkTracker ⟨3, 1, true, 4⟩)))).1.length = 3 ∧
    (getRotatedAccessCounts 1 (recordAccess 1 20 (recordAccess 0 10
        (mkTracker ⟨3, 1, true, 4⟩)))).1.getD 1 0
      = (recordAccess 1 20 (recordAccess 0 10
          (mkTracker ⟨3, 1, true, 4⟩))).itemCounts.getD
          (rotatedIdx (⟨3, 1, true, 4⟩ : Config)
            (getCurrentBucketIndex (⟨3, 1, true, 4⟩ : Config) 1 + 3 - 1)) 0 := by
  have h := getRotatedAccessCounts_ordering 1
    (recordAccess 1 20 (recordAccess 0 10 (mkTracker ⟨3, 1, true, 4⟩))) (by decide)
  exact ⟨h.1, h.2 1 (by decide)⟩

/-- C10: getRotatedAccessCounts never mutates the tracker - it skips the
rotation check entirely, leaving every backend, raw counter and the shared
index untouched - and its traversal starts from the tick-derived current
bucket index rather than from the shared most-recent index. -/
theorem getRotatedAccessCounts_pure (tick : Nat) (s : TrackerState) :
    (getRotatedAccessCounts tick s).2 = s ∧
    (getRotatedAccessCounts tick s).1
      = (List.range s.config.numBuckets).map (fun i =>
          s.itemCounts.getD
            (rotatedIdx s.config
              (getCurrentBucketIndex s.config tick + s.config.numBuckets - i)) 0) := by
  rw [getRotatedAccessCounts_eq]
  exact ⟨rfl, rfl⟩

theorem one_span_rotates {nb q : Nat} (h3 : 3 ≤ nb) :
    ¬ ((q + 1) % nb = q % nb ∨ ((q + 1) % nb + 1) % nb = q % nb) := by
  have hr : q % nb < nb := Nat.mod_lt _ (by omega)
  have h1 : (q + 1) % nb = (q % nb + 1) % nb := by
    rw [Nat.add_mod q 1 nb, Nat.mod_eq_of_lt (show 1 < nb by omega)]
  by_cases hcase : q % nb + 1 < nb
  · have ht : (q % nb + 1) % nb = q % nb + 1 := Nat.mod_eq_of_lt hcase
    rw [h1, ht]
    by_cases hcase2 : q % nb + 1 + 1 < nb
    · rw [Nat.mod_eq_of_lt hcase2]
      rintro (h | h) <;> omega
    · have hnb : q % nb + 1 + 1 = nb := by omega
      rw [hnb, Nat.mod_self]
      rintro (h | h) <;> omega
  · have hnb : q % nb + 1 = nb := by omega
    rw [h1, hnb, Nat.mod_self]
    have h2 : (0 + 1) % nb = 1 := by
      rw [Nat.zero_add, Nat.mod_eq_of_lt (by omega)]
    rw [h2]
    rintro (h | h) <;> omega

theorem getD_of_length_le {α : Type} {l : List α} {i : Nat} (d : α) (h : l.length ≤ i) :
    l.getD i d = d := by
  induction l generalizing i with
  | nil => cases i <;> rfl
  | cons a t ih =>
    cases i with
    | zero => simp at h
    | succ n => simpa using ih (by simpa using h)

theorem getD_set_nil_self {α : Type} (l : List (List α)) (i : Nat) :
    (l.set i ([] : List α)).getD i [] = [] := by
  by_cases h : i < l.length
  · exact getD_set_self _ _ h
  · rw [List.set_eq_of_length_le (by omega)]
    exact getD_of_length_le _ (by omega)

theorem useCounts_false_of_not_true {s : TrackerState}
    (hc : ¬ s.config.useCounts = true) : s.config.useCounts = false := by
  cases hx : s.config.useCounts
  · rfl
  · exact absurd hx hc

/-- C7 (amended): with at least three buckets, advancing the tick source by
exactly one bucket span from a state whose shared index matches the current
tick's bucket and performing an operation that runs the rotation check zeroes
only the newly-current bucket's backend contents and raw counter; every other
bucket is exactly as before.  With one or two buckets the tolerance condition
of the check suppresses the reset instead (see the counterexample). -/
theorem rotation_frame_one_span (t hashVal : Nat) (s : TrackerState)
    (hw : wf s) (h3 : 3 ≤ s.config.numBuckets)
    (hsync : s.mostRecentAccessedBucket = getCurrentBucketIndex s.config t) :
    (getAccesses (t + s.config.numTicksPerBucket) hashVal s).2
      = updateMostRecentAccessedBucket (t + s.config.numTicksPerBucket) s ∧
    (updateMostRecentAccessedBucket
        (t + s.config.numTicksPerBucket) s).mostRecentAccessedBucket
      = getCurrentBucketIndex s.config (t + s.config.numTicksPerBucket) ∧
    (updateMostRecentAccessedBucket (t + s.config.numTicksPerBucket) s).itemCounts.getD
        (getCurrentBucketIndex s.config (t + s.config.numTicksPerBucket)) 0 = 0 ∧
    (updateMostRecentAccessedBucket (t + s.config.numTicksPerBucket) s).counts.getD
        (getCurrentBucketIndex s.config (t + s.config.numTicksPerBucket)) [] = [] ∧
    (updateMostRecentAccessedBucket (t + s.config.numTicksPerBucket) s).filters.getD
        (getCurrentBucketIndex s.config (t + s.config.numTicksPerBucket)) [] = [] ∧
    (∀ j, j ≠ getCurrentBucketIndex s.config (t + s.config.numTicksPerBucket) →
      (updateMostRecentAccessedBucket (t + s.config.numTicksPerBucket) s).itemCounts.getD
          j 0 = s.itemCounts.getD j 0 ∧
      (updateMostRecentAccessedBucket (t + s.config.numTicksPerBucket) s).counts.getD
          j [] = s.counts.getD j [] ∧
      (updateMostRecentAccessedBucket (t + s.config.numTicksPerBucket) s).filters.getD
          j [] = s.filters.getD j []) := by
  obtain ⟨h1, h2, hlen, hmr, h5, h6⟩ := hw
  have hcond : ¬ (getCurrentBucketIndex s.config (t + s.config.numTicksPerBucket)
        = s.mostRecentAccessedBucket ∨
      rotatedIdx s.config
          (getCurrentBucketIndex s.config (t + s.config.numTicksPerBucket) + 1)
        = s.mostRecentAccessedBucket) := by
    have hdiv : (t + s.config.numTicksPerBucket) / s.config.numTicksPerBucket
        = t / s.config.numTicksPerBucket + 1 := Nat.add_div_right t (by omega)
    rw [hsync]
    unfold getCurrentBucketIndex rotatedIdx
    rw [hdiv]
    exact one_span_rotates h3
  set s2 : TrackerState := { s with mostRecentAccessedBucket := getCurrentBucketIndex s.config (t + s.config.numTicksPerBucket) } with hs2
  have hu : updateMostRecentAccessedBucket (t + s.config.numTicksPerBucket) s
      = resetBucketLocked s2
          (getCurrentBucketIndex s.config (t + s.config.numTicksPerBucket)) := by
    unfold updateMostRecentAccessedBucket
    dsimp only
    rw [if_neg hcond, hs2]
  have hnewlt : getCurrentBucketIndex s.config (t + s.config.numTicksPerBucket)
      < s.config.numBuckets := Nat.mod_lt _ (by omega)
  have hc2counts : s2.counts = s.counts := rfl
  have hc2filters : s2.filters = s.filters := rfl
  have hc2items : s2.itemCounts = s.itemCounts := rfl
  refine ⟨getAccesses_snd _ _ _, ?_, ?_, ?_, ?_, ?_⟩
  · rw [hu, mostRecent_resetBucketLocked]
  · rw [hu, itemCounts_resetBucketLocked, hc2items]
    exact getD_set_self _ _ (show _ < s.itemCounts.length by omega)
  · rw [hu]
    by_cases hc : s2.config.useCounts = true
    · rw [counts_resetBucketLocked_sketch _ hc, hc2counts]
      exact getD_set_nil_self _ _
    · rw [counts_resetBucketLocked_filter _ hc, hc2counts,
        (h6 (useCounts_false_of_not_true hc)).2]
      rfl
  · rw [hu]
    by_cases hc : s2.config.useCounts = true
    · rw [filters_resetBucketLocked_sketch _ hc, hc2filters, (h5 hc).2]
      rfl
    · rw [filters_resetBucketLocked_filter _ hc, hc2filters]
      exact getD_set_nil_self _ _
  · intro j hj
    refine ⟨?_, ?_, ?_⟩
    · rw [hu, itemCounts_resetBucketLocked, hc2items]
      exact getD_set_ne _ _ hj
    · rw [hu]
      by_cases hc : s2.config.useCounts = true
      · rw [counts_resetBucketLocked_sketch _ hc, hc2counts]
        exact getD_set_ne _ _ hj
      · rw [counts_resetBucketLocked_filter _ hc, hc2counts]
    · rw [hu]
      by_cases hc : s2.config.useCounts = true
      · rw [filters_resetBucketLocked_sketch _ hc, hc2filters]
      · rw [filters_resetBucketLocked_filter _ hc, hc2filters]
        exact getD_set_ne _ _ hj

/-- C7 counterexample: with numBuckets 1 the claim fails as stated.  After one
access at tick 0, advancing the tick source by exactly one bucket span (to
tick 1) and running the rotation check via getAccesses leaves the tracker
unchanged: the newly-current bucket (index 0) keeps raw counter 1 and backend
contents, instead of being zeroed. -/
theorem rotation_frame_counterexample :
    getCurrentBucketIndex (⟨1, 1, true, 4⟩ : Config) 1 = 0 ∧
    (getAccesses 1 5 (recordAccess 0 5 (mkTracker ⟨1, 1, true, 4⟩))).2
      = recordAccess 0 5 (mkTracker ⟨1, 1, true, 4⟩) ∧
    (getAccesses 1 5 (recordAccess 0 5 (mkTracker ⟨1, 1, true, 4⟩))).2.itemCounts.getD
      0 0 = 1 ∧
    (getAccesses 1 5 (recordAccess 0 5 (mkTracker ⟨1, 1, true, 4⟩))).2.counts.getD
      0 [] = [5] := by
  decide

/-- C7 witness: numBuckets 3, one access in bucket 0 at tick 0; the rotation
at tick 1 zeroes exactly bucket 1 and leaves bucket 0's counter at 1. -/
theorem rotation_frame_one_span_witness :
    (updateMostRecentAccessedBucket 1
        (recordAccess 0 5 (mkTracker ⟨3, 1, true, 4⟩))).mostRecentAccessedBucket
      = getCurrentBucketIndex
          (recordAccess 0 5 (mkTracker ⟨3, 1, true, 4⟩)).config 1 ∧
    (updateMostRecentAccessedBucket 1
        (recordAccess 0 5 (mkTracker ⟨3, 1, true, 4⟩))).itemCounts.getD
        (getCurrentBucketIndex
          (recordAccess 0 5 (mkTracker ⟨3, 1, true, 4⟩)).config 1) 0 = 0 ∧
    (updateMostRecentAccessedBucket 1
        (recordAccess 0 5 (mkTracker ⟨3, 1, true, 4⟩))).itemCounts.getD 0 0
      = (recordAccess 0 5 (mkTracker ⟨3, 1, true, 4⟩)).itemCounts.getD 0 0 := by
  have h := rotation_frame_one_span 0 5 (recordAccess 0 5 (mkTracker ⟨3, 1, true, 4⟩))
    (by decide) (by decide) (by decide)
  exact ⟨h.2.1, h.2.2.1, (h.2.2.2.2.2 0 (by decide)).1⟩

/-- C4 counterexample: numBuckets 1, numTicksPerBucket 1, one recordAccess at
tick 0, then getRotatedAccessCounts at tick 10: the sum of the returned
counts is 1, yet no recordAccess call lies within the last
numBuckets * numTicksPerBucket = 1 ticks (even with the inclusive reading of
the window bound), so the claimed equality fails: stale counts survive when
no operation runs the rotation check in between. -/
theorem rotated_counts_window_counterexample :
    (getRotatedAccessCounts 10 (runTrace ⟨1, 1, true, 4⟩ [Op.record 0 7])).1.sum = 1 ∧
    specRecordsInWindow [Op.record 0 7] 10
      ((⟨1, 1, true, 4⟩ : Config).numBuckets
        * (⟨1, 1, true, 4⟩ : Config).numTicksPerBucket) = 0 := by
  decide

/-- C4 (amended): the sum of getRotatedAccessCounts equals the number of
recordAccess calls made since construction minus the raw counts discarded by
rotation resets; only under rotation at every span does this reduce to the
calls of the last numBuckets * numTicksPerBucket ticks. -/
theorem rotated_counts_conservation (c : Config) (ops : List Op) (tick : Nat)
    (h1 : 1 ≤ c.numBuckets) (h2 : 1 ≤ c.numTicksPerBucket) :
    (getRotatedAccessCounts tick (runTrace c ops)).1.sum + totalDiscarded c ops
      = numRecords ops :=
  sum_runTrace h1 h2 ops tick

/-- C4 witness: two accesses at ticks 0 and 1 with numBuckets 3: nothing is
discarded and the rotated counts sum to 2. -/
theorem rotated_counts_conservation_witness :
    (getRotatedAccessCounts 1
        (runTrace ⟨3, 1, true, 4⟩ [Op.record 0 7, Op.record 1 8])).1.sum
      + totalDiscarded ⟨3, 1, true, 4⟩ [Op.record 0 7, Op.record 1 8]
      = numRecords [Op.record 0 7, Op.record 1 8] :=
  rotated_counts_conservation ⟨3, 1, true, 4⟩ [Op.record 0 7, Op.record 1 8] 1
    (by decide) (by decide)

/-- C6: the move constructor fails to transfer the raw operation counters.
Its initializer list omits itemCounts_, so after moving from a tracker with
numBuckets 1 and one recorded access the destination's itemCounts_ is
default-constructed empty (out of range for every bucket index) while the
source keeps both its counters and its bucket count, contradicting the claim
that the whole state transfers and the source is left with zero buckets.
Move assignment delegates to the same constructor. -/
theorem move_constructor_drops_itemCounts :
    (recordAccess 0 5 (mkTracker ⟨1, 1, true, 4⟩)).itemCounts = [1] ∧
    (moveConstructFrom (recordAccess 0 5 (mkTracker ⟨1, 1, true, 4⟩))).1.itemCounts
      = [] ∧
    (moveConstructFrom (recordAccess 0 5 (mkTracker ⟨1, 1, true, 4⟩))).1.itemCounts.get?
      0 = none ∧
    (moveConstructFrom (recordAccess 0 5 (mkTracker ⟨1, 1, true, 4⟩))).2.itemCounts
      = [1] ∧
    getNumBuckets (moveConstructFrom (recordAccess 0 5 (mkTracker ⟨1, 1, true, 4⟩))).2
      = 1 ∧
    (moveAssign (mkTracker ⟨1, 1, true, 4⟩)
        (recordAccess 0 5 (mkTracker ⟨1, 1, true, 4⟩))).1.itemCounts = [] := by
  decide

theorem counts_length_updateBucketLocked (s : TrackerState) (idx hashVal : Nat) :
    (updateBucketLocked s idx hashVal).counts.length = s.counts.length := by
  by_cases hc : s.config.useCounts = true
  · rw [counts_updateBucketLocked_sketch _ _ hc, List.length_set]
  · rw [counts_updateBucketLocked_filter _ _ hc]

theorem filters_length_updateBucketLocked (s : TrackerState) (idx hashVal : Nat) :
    (updateBucketLocked s idx hashVal).filters.length = s.filters.length := by
  by_cases hc : s.config.useCounts = true
  · rw [filters_updateBucketLocked_sketch _ _ hc]
  · rw [filters_updateBucketLocked_filter _ _ hc, List.length_set]

theorem counts_length_resetBucketLocked (s : TrackerState) (idx : Nat) :
    (resetBucketLocked s idx).counts.length = s.counts.length := by
  by_cases hc : s.config.useCounts = true
  · rw [counts_resetBucketLocked_sketch _ hc, List.length_set]
  · rw [counts_resetBucketLocked_filter _ hc]

theorem filters_length_resetBucketLocked (s : TrackerState) (idx : Nat) :
    (resetBucketLocked s idx).filters.length = s.filters.length := by
  by_cases hc : s.config.useCounts = true
  · rw [filters_resetBucketLocked_sketch _ hc]
  · rw [filters_resetBucketLocked_filter _ hc, List.length_set]

theorem counts_length_updMR (tick : Nat) (s : TrackerState) :
    (updateMostRecentAccessedBucket tick s).counts.length = s.counts.length := by
  unfold updateMostRecentAccessedBucket
  dsimp only
  split
  · rfl
  · rw [counts_length_resetBucketLocked]

theorem filters_length_updMR (tick : Nat) (s : TrackerState) :
    (updateMostRecentAccessedBucket tick s).filters.length = s.filters.length := by
  unfold updateMostRecentAccessedBucket
  dsimp only
  split
  · rfl
  · rw [filters_length_resetBucketLocked]

theorem isEmpty_eq_of_length_eq {α : Type} {l l' : List α}
    (h : l.length = l'.length) : l.isEmpty = l'.isEmpty := by
  cases l <;> cases l' <;> simp_all

theorem getByteSize_congr {s' s : TrackerState} (hcfg : s'.config = s.config)
    (hf : s'.filters.length = s.filters.length)
    (hc : s'.counts.length = s.counts.length) :
    getByteSize s' = getByteSize s := by
  unfold getByteSize
  rw [hcfg, hf, hc, isEmpty_eq_of_length_eq hc]

theorem isEmpty_false_of_pos {α : Type} {l : List α} (h : 1 ≤ l.length) :
    l.isEmpty = false := by
  cases l
  · simp at h
  · rfl

/-- C8: getByteSize equals the sum over all buckets of the per-bucket backend
byte size, is 0 when there are no buckets, and is fixed after construction:
recordAccess, getAccesses and rotation resets leave it unchanged. -/
theorem getByteSize_spec (c : Config) (tick hashVal : Nat) (s : TrackerState)
    (hw : wf s) :
    getByteSize s
      = (List.replicate s.config.numBuckets s.config.bucketByteSize).sum ∧
    (c.numBuckets = 0 → getByteSize (mkTracker c) = 0) ∧
    getByteSize (recordAccess tick hashVal s) = getByteSize s ∧
    getByteSize ((getAccesses tick hashVal s).2) = getByteSize s ∧
    getByteSize (updateMostRecentAccessedBucket tick s) = getByteSize s := by
  obtain ⟨h1, h2, hlen, hmr, h5, h6⟩ := hw
  have hrepl : (List.replicate s.config.numBuckets s.config.bucketByteSize).sum
      = s.config.numBuckets * s.config.bucketByteSize := by
    simp [List.sum_replicate, smul_eq_mul]
  have hMR : getByteSize (updateMostRecentAccessedBucket tick s) = getByteSize s :=
    getByteSize_congr (config_updateMostRecentAccessedBucket tick s)
      (filters_length_updMR tick s) (counts_length_updMR tick s)
  refine ⟨?_, ?_, ?_, ?_, hMR⟩
  · unfold getByteSize
    rw [hrepl]
    by_cases hcu : s.config.useCounts = true
    · obtain ⟨hc, hf⟩ := h5 hcu
      rw [hf, isEmpty_false_of_pos (by omega), hc]
      simp
    · obtain ⟨hf, hc⟩ := h6 (useCounts_false_of_not_true hcu)
      rw [hc, hf]
      simp
  · intro h0
    unfold getByteSize mkTracker
    dsimp only
    cases hcu : c.useCounts <;> simp [h0]
  · unfold recordAccess
    dsimp only
    refine Eq.trans ?_ hMR
    exact getByteSize_congr (config_updateBucketLocked _ _ _)
      (filters_length_updateBucketLocked _ _ _)
      (counts_length_updateBucketLocked _ _ _)
  · rw [getAccesses_snd]
    exact hMR

/-- C8 witness: numBuckets 3, per-bucket byte size 4: total 12 bytes, fixed
under a record at tick 0; and a no-bucket tracker reports 0. -/
theorem getByteSize_spec_witness :
    getByteSize (recordAccess 0 10 (mkTracker ⟨3, 1, true, 4⟩))
      = (List.replicate 3 4).sum ∧
    getByteSize (mkTracker ⟨0, 1, true, 4⟩) = 0 ∧
    getByteSize (recordAccess 0 5 (recordAccess 0 10 (mkTracker ⟨3, 1, true, 4⟩)))
      = getByteSize (recordAccess 0 10 (mkTracker ⟨3, 1, true, 4⟩)) := by
  have h := getByteSize_spec ⟨0, 1, true, 4⟩ 0 5
    (recordAccess 0 10 (mkTracker ⟨3, 1, true, 4⟩)) (by decide)
  exact ⟨h.1, h.2.1 (by decide), h.2.2.1⟩

/-- C9: with numBuckets and numTicksPerBucket at least 1, every bucket index
the tracker computes (rotation targets, the index recordAccess loads, every
traversal index; all images of rotatedIdx) lies in range, well-formedness is
preserved by every operation, and construction is well-formed; with
numBuckets = 0 the modulus is zero, rotatedIdx degenerates to the identity
and every raw-counter access is out of range. -/
theorem index_safety (c : Config) (tick bucket hashVal : Nat) (s : TrackerState) :
    (1 ≤ c.numBuckets →
      rotatedIdx c bucket < c.numBuckets ∧
      getCurrentBucketIndex c tick < c.numBuckets) ∧
    (1 ≤ c.numBuckets → 1 ≤ c.numTicksPerBucket → wf (mkTracker c)) ∧
    (wf s →
      wf (recordAccess tick hashVal s) ∧
      wf ((getAccesses tick hashVal s).2) ∧
      (getRotatedAccessCounts tick s).2 = s ∧
      (updateMostRecentAccessedBucket tick s).mostRecentAccessedBucket
        < s.config.numBuckets) ∧
    (c.numBuckets = 0 →
      rotatedIdx c bucket = bucket ∧
      ∀ j, (mkTracker c).itemCounts.get? j = none) := by
  refine ⟨?_, ?_, ?_, ?_⟩
  · intro h1
    exact ⟨Nat.mod_lt _ (by omega), Nat.mod_lt _ (by omega)⟩
  · intro h1 h2
    exact wf_mkTracker h1 h2
  · intro hw
    refine ⟨wf_updateBucketLocked _ _ (wf_updateMostRecentAccessedBucket tick hw),
      ?_, ?_, ?_⟩
    · rw [getAccesses_snd]
      exact wf_updateMostRecentAccessedBucket tick hw
    · rw [getRotatedAccessCounts_eq]
    · have h := (wf_updateMostRecentAccessedBucket tick hw).2.2.2.1
      rwa [config_updateMostRecentAccessedBucket] at h
  · intro h0
    constructor
    · unfold rotatedIdx
      rw [h0, Nat.mod_zero]
    · intro j
      show (List.replicate c.numBuckets 0).get? j = none
      rw [h0]
      cases j <;> rfl

/-- C9 witness: numBuckets 3 keeps every index in range and preserves
well-formedness; numBuckets 0 makes rotatedIdx the identity. -/
theorem index_safety_witness :
    rotatedIdx (⟨3, 1, true, 4⟩ : Config) 7 < 3 ∧
    wf (mkTracker ⟨3, 1, true, 4⟩) ∧
    wf (recordAccess 0 5 (mkTracker ⟨3, 1, true, 4⟩)) ∧
    rotatedIdx (⟨0, 1, true, 4⟩ : Config) 7 = 7 := by
  have hA := index_safety ⟨3, 1, true, 4⟩ 0 7 5 (mkTracker ⟨3, 1, true, 4⟩)
  have hB := index_safety ⟨0, 1, true, 4⟩ 0 7 5 (mkTracker ⟨0, 1, true, 4⟩)
  exact ⟨(hA.1 (by decide)).1, hA.2.1 (by decide) (by decide),
    (hA.2.2.1 (hA.2.1 (by decide) (by decide))).1, (hB.2.2.2 (by decide)).1⟩
